import Mathlib

/-!
# Portfolio Analyzer — verification of the dip/recommendation core

Shallow embedding of the portfolio-analyzer repository's recommendation
and valuation logic, together with the theorems that settle the frozen
claims about it.

Monetary quantities and percentages are modelled as rationals (`ℚ`);
JavaScript's absent/`undefined`/`null` values are modelled as `Option`.
-/

namespace PortfolioAnalyzer

/-! ## Dip classification (frontend `Recommendations` component)

Embeds the `Recommendation` interface and the functions
`getDipPercentage` / `getBestDipInfo` from the `Recommendations`
component.  The source formats the returned percentage with
`.toFixed(1)` for display; the embedding keeps the exact rational value
that is being formatted. -/

/-- The fields of the `Recommendation` interface (per-ticker data returned
by the recommendations endpoint). -/
structure Recommendation where
  ticker : String
  sharesToBuy : ℤ
  currentPrice : ℚ
  weeklyHigh : ℚ
  monthlyHigh : ℚ
  yearlyHigh : ℚ
  deriving Repr, DecidableEq

/-- `getDipPercentage(current, high)`: `(high - current) / high * 100`
(the source applies `.toFixed(1)` to this value for display). -/
def getDipPercentage (current high : ℚ) : ℚ :=
  (high - current) / high * 100

/-- The timeframe tag of a classified dip (`'yearly' | 'monthly' | 'weekly'`
in the source). -/
inductive Timeframe where
  | yearly
  | monthly
  | weekly
  deriving Repr, DecidableEq

/-- The object returned by `getBestDipInfo` when a threshold is met:
`{ type, percentage, high }`. -/
structure DipInfo where
  type : Timeframe
  percentage : ℚ
  high : ℚ
  deriving Repr, DecidableEq

/-- `yearlyDip` as computed in `getBestDipInfo`. -/
def yearlyDip (rec : Recommendation) : ℚ :=
  (rec.yearlyHigh - rec.currentPrice) / rec.yearlyHigh * 100

/-- `monthlyDip` as computed in `getBestDipInfo`. -/
def monthlyDip (rec : Recommendation) : ℚ :=
  (rec.monthlyHigh - rec.currentPrice) / rec.monthlyHigh * 100

/-- `weeklyDip` as computed in `getBestDipInfo`. -/
def weeklyDip (rec : Recommendation) : ℚ :=
  (rec.weeklyHigh - rec.currentPrice) / rec.weeklyHigh * 100

/-- `getBestDipInfo(rec)`: priority-ordered threshold classification;
returns `null` (here `none`) when no threshold is met. -/
def getBestDipInfo (rec : Recommendation) : Option DipInfo :=
  if yearlyDip rec > 10 then
    some ⟨Timeframe.yearly, yearlyDip rec, rec.yearlyHigh⟩
  else if monthlyDip rec > 5 then
    some ⟨Timeframe.monthly, monthlyDip rec, rec.monthlyHigh⟩
  else if weeklyDip rec > 2 then
    some ⟨Timeframe.weekly, weeklyDip rec, rec.weeklyHigh⟩
  else
    none

/-! ## Projected portfolio and component state (frontend `Recommendations`) -/

/-- The `ProjectedAllocation` interface: `{ ticker, value, percentage }`. -/
structure ProjectedAllocation where
  ticker : String
  value : ℚ
  percentage : ℚ
  deriving Repr, DecidableEq

/-- The `ProjectedPortfolio` interface: `{ total_value, allocations }`. -/
structure ProjectedPortfolio where
  totalValue : ℚ
  allocations : List ProjectedAllocation
  deriving Repr, DecidableEq

/-- The `RecommendationsResponse` interface returned by the
recommendations endpoint. -/
structure RecommendationsResponse where
  recommendations : List Recommendation
  projectedPortfolio : ProjectedPortfolio
  deriving Repr, DecidableEq

/-- The sort applied to `projected_portfolio.allocations` before display,
`.sort((a, b) => b.percentage - a.percentage)`: a comparator-respecting
sort, so element `a` precedes `b` exactly when the comparator value
`b.percentage - a.percentage` is non-positive. -/
def sortAllocationsDesc (xs : List ProjectedAllocation) : List ProjectedAllocation :=
  xs.mergeSort (fun a b => decide (b.percentage ≤ a.percentage))

/-- The `enabled` flag of the recommendations query:
`enabled: availableCash > 0`. -/
def recommendationsQueryEnabled (availableCash : ℚ) : Bool :=
  decide (availableCash > 0)

/-- The condition guarding the empty-state render:
`if (!data || data.recommendations.length === 0)`. -/
def showsEmptyState : Option RecommendationsResponse → Bool
  | Option.none => true
  | Option.some d => decide (d.recommendations.length = 0)

/-- `handleCashUpdate`: the cash-edit submit handler.  The argument is the
result of `parseFloat(cashInput)`, with `none` standing for `NaN`; the
returned Bool is whether the guard `!isNaN(newCash) && newCash >= 0`
passes, i.e. whether `onCashUpdate(newCash)` is called and the
recommendation request re-issued via `refetch()`. -/
def handleCashUpdate (parsed : Option ℚ) : Bool :=
  match parsed with
  | Option.none => false
  | Option.some v => decide (0 ≤ v)

/-! ## Rendering of holding rows (frontend `PortfolioDetail`)

Embeds the stocks-table cells and the formatting helpers of the
`PortfolioDetail` component.  Numeric JSON fields are modelled as `ℚ`
and absent (`undefined`/`null`) values as `none`. -/

/-- JavaScript truthiness of a possibly-absent number: `undefined`,
`null`, `0` (and `NaN`, not representable in `ℚ`) are falsy. -/
def truthy : Option ℚ → Bool
  | Option.none => false
  | Option.some x => decide (x ≠ 0)

/-- Zero-pads a two-digit cents value. -/
def pad2 (n : ℕ) : String :=
  if n < 10 then "0" ++ toString n else toString n

/-- Zero-pads a three-digit thousands group. -/
def pad3 (n : ℕ) : String :=
  if n < 10 then "00" ++ toString n
  else if n < 100 then "0" ++ toString n
  else toString n

/-- Decimal rendering of a natural number with `en-US` comma grouping,
as produced by `Intl.NumberFormat('en-US')`. -/
def groupThousands (n : ℕ) : String :=
  if _h : n < 1000 then toString n
  else groupThousands (n / 1000) ++ "," ++ pad3 (n % 1000)
termination_by n
decreasing_by
  exact Nat.div_lt_self (by omega) (by norm_num)

/-- Magnitude of a rational rendered with exactly two fraction digits
(rounding half away from zero) and comma grouping, as produced by
`Intl.NumberFormat('en-US', { minimumFractionDigits: 2,
maximumFractionDigits: 2 })`. -/
def formatFixed2 (x : ℚ) : String :=
  let cents := (Int.floor (|x| * 100 + 1/2)).toNat
  groupThousands (cents / 100) ++ "." ++ pad2 (cents % 100)

/-- `formatCurrency` (PortfolioDetail): `undefined`/`null` render as
`"$0.00"`, numbers via USD currency formatting. -/
def formatCurrency : Option ℚ → String
  | Option.none => "$0.00"
  | Option.some x => (if x < 0 then "-" else "") ++ "$" ++ formatFixed2 x

/-- `formatPercentage` (PortfolioDetail): `undefined`/`null` render as
`"0.00%"`, numbers as `value / 100` in percent style with two fraction
digits, i.e. the number itself followed by `%`. -/
def formatPercentage : Option ℚ → String
  | Option.none => "0.00%"
  | Option.some x => (if x < 0 then "-" else "") ++ formatFixed2 x ++ "%"

/-- `formatPLPercentage` (PortfolioDetail): prefixes `+` to non-negative
values and delegates to `formatPercentage`. -/
def formatPLPercentage : Option ℚ → String
  | Option.none => "0.00%"
  | Option.some v => (if 0 ≤ v then "+" else "") ++ formatPercentage (Option.some v)

/-- A currency cell of the stocks table
(`{stock.value ? formatCurrency(stock.value) : 'N/A'}`, and likewise the
`current_price` and `pl_dollar` cells): the value is formatted only when
truthy, otherwise the cell shows `"N/A"`. -/
def currencyCell (v : Option ℚ) : String :=
  if truthy v then formatCurrency v else "N/A"

/-- The P/L-percent cell of the stocks table
(`{stock.pl_percent ? formatPLPercentage(stock.pl_percent) : 'N/A'}`). -/
def plPercentCell (v : Option ℚ) : String :=
  if truthy v then formatPLPercentage v else "N/A"

/-! ## Spec-modelled backend core

The repository's Flask backend (Valuation Engine, Dip Scorer,
Allocation Planner) is not part of the available sources; only its
frontend callers and tests are.  The definitions in this section are
therefore modelled from the spec, faithful to its words. -/

/-- Modelled from the spec: a `Holding` of the data model; `currentPrice`
may be absent. -/
structure Holding where
  ticker : String
  shares : ℚ
  averagePrice : ℚ
  currentPrice : Option ℚ
  deriving Repr, DecidableEq

/-- The derived per-holding fields produced by the Valuation Engine;
each is absent when `current_price` is absent. -/
structure ValuationFields where
  value : Option ℚ
  plDollar : Option ℚ
  plPercent : Option ℚ
  deriving Repr, DecidableEq

/-- Modelled from the spec: the missing Valuation Engine's `valuate`.
`current_price` absent ⇒ value/pl fields are undefined/null; otherwise
`value = shares * current_price`,
`pl_dollar = shares * (current_price - average_price)`,
`pl_percent = (current_price - average_price) / average_price * 100`. -/
def valuate (h : Holding) : ValuationFields :=
  match h.currentPrice with
  | Option.none => ⟨Option.none, Option.none, Option.none⟩
  | Option.some cp =>
      ⟨Option.some (h.shares * cp),
       Option.some (h.shares * (cp - h.averagePrice)),
       Option.some ((cp - h.averagePrice) / h.averagePrice * 100)⟩

/-- The aggregate `PortfolioValuation` of the data model. -/
structure PortfolioValuation where
  totalValue : ℚ
  totalPl : ℚ
  totalPlPercent : ℚ
  deriving Repr, DecidableEq

/-- Modelled from the spec: the missing Valuation Engine's `aggregate`.
Holdings with an absent `current_price` are excluded from the aggregate
sums (zero contribution, not zero value); a zero cost-basis denominator
yields `total_pl_percent = 0`. -/
def aggregate (hs : List Holding) : PortfolioValuation :=
  let priced := hs.filter (fun h => h.currentPrice.isSome)
  let tv := (priced.map (fun h => h.shares * h.currentPrice.getD 0)).sum
  let costBasis := (priced.map (fun h => h.shares * h.averagePrice)).sum
  let tpl := (priced.map (fun h => h.shares * (h.currentPrice.getD 0 - h.averagePrice))).sum
  ⟨tv, tpl, if costBasis = 0 then 0 else tpl / costBasis * 100⟩

/-- Modelled from the spec: a `PriceProfile`, externally supplied per
ticker. -/
structure PriceProfile where
  currentPrice : ℚ
  weeklyHigh : ℚ
  monthlyHigh : ℚ
  yearlyHigh : ℚ
  deriving Repr, DecidableEq

/-- The spec's `DipSignal.timeframe` values. -/
inductive SpecTimeframe where
  | yearly
  | monthly
  | weekly
  | none
  deriving Repr, DecidableEq

/-- The spec's ephemeral `DipSignal` value object. -/
structure DipSignal where
  ticker : String
  timeframe : SpecTimeframe
  dipPercent : ℚ
  compositeScore : ℚ
  deriving Repr, DecidableEq

/-- Clamp a dip to `≥ 0`. -/
def clamp0 (x : ℚ) : ℚ := max x 0

/-- Modelled from the spec: the missing Dip Scorer's `score`.  Each
timeframe dip is `(high - current) / high * 100` clamped to `≥ 0`;
classification is priority-ordered (`yearly > 10`, then `monthly > 5`,
then `weekly > 2`, else `none`); the composite score is
`0.5 * yearly + 0.3 * monthly + 0.2 * weekly` over the clamped dips.
The spec leaves `dip_percent` unspecified for unclassified tickers; the
model uses `0` there (the value is never consumed, since such signals
are excluded from allocation). -/
def score (ticker : String) (p : PriceProfile) : DipSignal :=
  let yd := clamp0 ((p.yearlyHigh - p.currentPrice) / p.yearlyHigh * 100)
  let md := clamp0 ((p.monthlyHigh - p.currentPrice) / p.monthlyHigh * 100)
  let wd := clamp0 ((p.weeklyHigh - p.currentPrice) / p.weeklyHigh * 100)
  let comp := 1/2 * yd + 3/10 * md + 1/5 * wd
  if yd > 10 then ⟨ticker, SpecTimeframe.yearly, yd, comp⟩
  else if md > 5 then ⟨ticker, SpecTimeframe.monthly, md, comp⟩
  else if wd > 2 then ⟨ticker, SpecTimeframe.weekly, wd, comp⟩
  else ⟨ticker, SpecTimeframe.none, 0, comp⟩

/-- Modelled from the spec: tickers with `timeframe = none` are excluded
from downstream allocation — the Allocation Planner's candidates are
filtered to `timeframe ≠ none`. -/
def qualifyingSignals (sigs : List DipSignal) : List DipSignal :=
  sigs.filter (fun s => decide (s.timeframe ≠ SpecTimeframe.none))

/-- A qualifying candidate as consumed by the Allocation Planner: its
composite score together with its current price. -/
structure Candidate where
  ticker : String
  compositeScore : ℚ
  price : ℚ
  deriving Repr, DecidableEq

/-- An `AllocationPlan` entry. -/
structure PlanEntry where
  ticker : String
  sharesToBuy : ℕ
  investmentAmount : ℚ
  deriving Repr, DecidableEq

/-- The plan produced by the Allocation Planner. -/
structure AllocationPlan where
  entries : List PlanEntry
  remainingCash : ℚ
  deriving Repr, DecidableEq

/-- The spec's request-level allocation failure. -/
inductive AllocError where
  | invalidAllocationInput
  deriving Repr, DecidableEq

/-- Candidate ranking: descending by composite score, ties broken
alphabetically by ticker for determinism. -/
def rankLE (a b : Candidate) : Bool :=
  decide (b.compositeScore < a.compositeScore) ||
    (decide (a.compositeScore = b.compositeScore) && decide (a.ticker ≤ b.ticker))

/-- Rank candidates as prescribed by the spec's step 1. -/
def rankCandidates (cs : List Candidate) : List Candidate :=
  cs.mergeSort rankLE

/-- Pass 1 share count for one candidate:
`floor((available_cash * score / sum_scores) / price)`. -/
def pass1Shares (cash sumScores : ℚ) (c : Candidate) : ℕ :=
  (Int.floor (cash * c.compositeScore / sumScores / c.price)).toNat

/-- Total invested so far over working entries (candidate with its
current share count). -/
def entriesSum (xs : List (Candidate × ℕ)) : ℚ :=
  (xs.map (fun e => (e.2 : ℚ) * e.1.price)).sum

/-- One pass-2 sweep in rank order: each candidate affordable with the
current leftover buys one more share; returns the updated entries, the
new leftover, and whether the sweep bought anything. -/
def sweep : List (Candidate × ℕ) → ℚ → List (Candidate × ℕ) × ℚ × Bool
  | [], leftover => ([], leftover, false)
  | (c, n) :: rest, leftover =>
      if c.price ≤ leftover then
        let r := sweep rest (leftover - c.price)
        ((c, n + 1) :: r.1, r.2.1, true)
      else
        let r := sweep rest leftover
        ((c, n) :: r.1, r.2.1, r.2.2)

/-- Repeat full ranked sweeps until a pass buys nothing (or the fuel
bound is reached; the caller passes fuel exceeding the greatest possible
number of buying sweeps, so with positive prices the recursion reaches
quiescence exactly as the spec's loop does). -/
def fill : ℕ → List (Candidate × ℕ) → ℚ → List (Candidate × ℕ) × ℚ
  | 0, xs, leftover => (xs, leftover)
  | Nat.succ fuel, xs, leftover =>
      let r := sweep xs leftover
      if r.2.2 then fill fuel r.1 r.2.1 else (r.1, r.2.1)

/-- The cheapest candidate price (1 on an empty list, unused there). -/
def minPrice : List Candidate → ℚ
  | [] => 1
  | c :: cs => cs.foldl (fun m x => min m x.price) c.price

/-- Modelled from the spec: the two-pass body of the missing Allocation
Planner for positive cash and a non-empty candidate list: pass 1
proportional budgeting with floored whole-share purchases, then pass-2
greedy remainder filling; `remaining_cash` is the running leftover at
termination. -/
def allocateMain (cash : ℚ) (cands : List Candidate) : AllocationPlan :=
  let ranked := rankCandidates cands
  let sumScores := (ranked.map (fun c => c.compositeScore)).sum
  let entries0 := ranked.map (fun c => (c, pass1Shares cash sumScores c))
  let leftover0 := cash - entriesSum entries0
  let fuel := (Int.floor (cash / minPrice ranked)).toNat + 1
  let res := fill fuel entries0 leftover0
  ⟨res.1.map (fun e => ⟨e.1.ticker, e.2, (e.2 : ℚ) * e.1.price⟩), res.2⟩

/-- Modelled from the spec: the missing Allocation Planner's `allocate`.
Negative cash signals `InvalidAllocationInput`; zero cash yields an
empty plan with `remaining_cash = 0`; no qualifying candidates yields an
empty plan with `remaining_cash = available_cash`; otherwise
score-weighted proportional budgeting with floor-to-whole-share
purchases (pass 1) followed by greedy remainder filling in rank order
(pass 2). -/
def allocate (cash : ℚ) (cands : List Candidate) : Except AllocError AllocationPlan :=
  if cash < 0 then Except.error AllocError.invalidAllocationInput
  else if cash = 0 then Except.ok ⟨[], 0⟩
  else if cands.isEmpty then Except.ok ⟨[], cash⟩
  else Except.ok (allocateMain cash cands)

/-! ## Theorems -/

/-- A pass-2 sweep conserves money: invested total plus leftover is
unchanged. -/
theorem sweep_sum (xs : List (Candidate × ℕ)) (l : ℚ) :
    entriesSum (sweep xs l).1 + (sweep xs l).2.1 = entriesSum xs + l := by
  induction xs generalizing l with
  | nil => simp [sweep]
  | cons hd tl ih =>
      obtain ⟨c, n⟩ := hd
      by_cases h : c.price ≤ l
      · have ht := ih (l - c.price)
        simp only [entriesSum, List.map_cons, List.sum_cons] at *
        simp only [sweep, if_pos h, List.map_cons, List.sum_cons]
        push_cast
        linarith
      · have ht := ih l
        simp only [entriesSum, List.map_cons, List.sum_cons] at *
        simp only [sweep, if_neg h, List.map_cons, List.sum_cons]
        linarith

/-- Iterated pass-2 sweeps conserve money. -/
theorem fill_sum (fuel : ℕ) (xs : List (Candidate × ℕ)) (l : ℚ) :
    entriesSum (fill fuel xs l).1 + (fill fuel xs l).2 = entriesSum xs + l := by
  induction fuel generalizing xs l with
  | zero => simp [fill]
  | succ fuel ih =>
      cases hb : (sweep xs l).2.2 with
      | false =>
          simp only [fill, hb, Bool.false_eq_true, if_false]
          exact sweep_sum xs l
      | true =>
          simp only [fill, hb, if_true]
          rw [ih]
          exact sweep_sum xs l

/-- Converting working entries to plan entries preserves the invested
total. -/
theorem planEntries_sum (xs : List (Candidate × ℕ)) :
    ((xs.map (fun e => PlanEntry.mk e.1.ticker e.2 ((e.2 : ℚ) * e.1.price))).map
        (fun pe => pe.investmentAmount)).sum = entriesSum xs := by
  simp [entriesSum, List.map_map, Function.comp_def]

/-- The two-pass body satisfies the money-conservation invariant. -/
theorem allocateMain_sum (cash : ℚ) (cands : List Candidate) :
    ((allocateMain cash cands).entries.map (fun e => e.investmentAmount)).sum
      + (allocateMain cash cands).remainingCash = cash := by
  simp only [allocateMain]
  rw [planEntries_sum, fill_sum]
  ring

/-- Claim C1: for every allocation run with `available_cash ≥ 0`, the run
succeeds and the sum of `investment_amount` over all entries of the
produced `AllocationPlan` plus its `remaining_cash` equals
`available_cash` exactly, regardless of the number of candidates or the
size of the cash amount. -/
theorem alloc_invariant_sum (cash : ℚ) (cands : List Candidate) (hcash : 0 ≤ cash) :
    ∃ plan, allocate cash cands = Except.ok plan ∧
      (plan.entries.map (fun e => e.investmentAmount)).sum + plan.remainingCash = cash := by
  have h1 : ¬ cash < 0 := not_lt.mpr hcash
  by_cases h2 : cash = 0
  · exact ⟨⟨[], 0⟩, by simp [allocate, h1, h2], by simp [h2]⟩
  by_cases h3 : cands.isEmpty
  · exact ⟨⟨[], cash⟩, by simp [allocate, h1, h2, h3], by simp⟩
  · exact ⟨allocateMain cash cands, by simp [allocate, h1, h2, h3],
      allocateMain_sum cash cands⟩

/-- Witness for C1 at a concrete run: cash 10 with two candidates. -/
theorem alloc_invariant_sum_witness :
    0 ≤ (10 : ℚ) ∧
    (allocate 10 [⟨"A", 3, 2⟩, ⟨"B", 1, 5⟩]).toOption.elim 0
        (fun plan =>
          (plan.entries.map (fun e => e.investmentAmount)).sum + plan.remainingCash)
      = 10 := by
  obtain ⟨plan, hok, hsum⟩ :=
    alloc_invariant_sum 10 [⟨"A", 3, 2⟩, ⟨"B", 1, 5⟩] (by norm_num)
  refine ⟨by norm_num, ?_⟩
  rw [hok]
  simpa [Except.toOption] using hsum

/-- Claim C2: dip classification is priority-ordered, not
magnitude-ordered — `yearly_dip > 10` is checked first and wins with
`dip_percent = yearly_dip`; only otherwise is `monthly_dip > 5` checked,
and only otherwise `weekly_dip > 2`. -/
theorem dip_classification_priority (rec : Recommendation)
    (hc : 0 < rec.currentPrice) (hw : 0 < rec.weeklyHigh)
    (hm : 0 < rec.monthlyHigh) (hy : 0 < rec.yearlyHigh) :
    (yearlyDip rec > 10 →
      getBestDipInfo rec = some ⟨Timeframe.yearly, yearlyDip rec, rec.yearlyHigh⟩) ∧
    (¬ yearlyDip rec > 10 → monthlyDip rec > 5 →
      getBestDipInfo rec = some ⟨Timeframe.monthly, monthlyDip rec, rec.monthlyHigh⟩) ∧
    (¬ yearlyDip rec > 10 → ¬ monthlyDip rec > 5 → weeklyDip rec > 2 →
      getBestDipInfo rec = some ⟨Timeframe.weekly, weeklyDip rec, rec.weeklyHigh⟩) := by
  refine ⟨fun h1 => ?_, fun h1 h2 => ?_, fun h1 h2 h3 => ?_⟩
  · simp [getBestDipInfo, h1]
  · simp [getBestDipInfo, h1, h2]
  · simp [getBestDipInfo, h1, h2, h3]

/-- Witness for C2: a candidate with `yearly_dip = 12` and
`monthly_dip = 20` is classified `yearly` with `dip_percent = 12`, not
`monthly`, despite the larger monthly dip. -/
theorem dip_classification_priority_witness :
    getBestDipInfo ⟨"ACME", 0, 88, 90, 110, 100⟩
        = some ⟨Timeframe.yearly, 12, 100⟩ ∧
    monthlyDip ⟨"ACME", 0, 88, 90, 110, 100⟩ = 20 := by
  have h := (dip_classification_priority ⟨"ACME", 0, 88, 90, 110, 100⟩
      (by norm_num) (by norm_num) (by norm_num) (by norm_num)).1
    (by norm_num [yearlyDip])
  refine ⟨?_, by norm_num [monthlyDip]⟩
  rw [h]
  norm_num [yearlyDip]

/-- Claim C3: when no threshold is met (`yearly_dip ≤ 10`,
`monthly_dip ≤ 5`, `weekly_dip ≤ 2`), the classifier returns no result
(`null` / `timeframe = none`) and the ticker is excluded from downstream
allocation rather than scored zero: its spec-modelled `DipSignal` never
survives the qualifying filter that feeds the Allocation Planner. -/
theorem no_threshold_excluded (rec : Recommendation)
    (hy : yearlyDip rec ≤ 10) (hm : monthlyDip rec ≤ 5) (hw : weeklyDip rec ≤ 2)
    (t : String) (p : PriceProfile)
    (hy' : (p.yearlyHigh - p.currentPrice) / p.yearlyHigh * 100 ≤ 10)
    (hm' : (p.monthlyHigh - p.currentPrice) / p.monthlyHigh * 100 ≤ 5)
    (hw' : (p.weeklyHigh - p.currentPrice) / p.weeklyHigh * 100 ≤ 2) :
    getBestDipInfo rec = none ∧
    (score t p).timeframe = SpecTimeframe.none ∧
    ∀ sigs : List DipSignal, score t p ∉ qualifyingSignals sigs := by
  have h1 : ¬ clamp0 ((p.yearlyHigh - p.currentPrice) / p.yearlyHigh * 100) > 10 :=
    not_lt.mpr (max_le hy' (by norm_num))
  have h2 : ¬ clamp0 ((p.monthlyHigh - p.currentPrice) / p.monthlyHigh * 100) > 5 :=
    not_lt.mpr (max_le hm' (by norm_num))
  have h3 : ¬ clamp0 ((p.weeklyHigh - p.currentPrice) / p.weeklyHigh * 100) > 2 :=
    not_lt.mpr (max_le hw' (by norm_num))
  have htf : (score t p).timeframe = SpecTimeframe.none := by
    simp only [score]
    simp [h1, h2, h3]
  refine ⟨?_, htf, ?_⟩
  · simp [getBestDipInfo, not_lt.mpr hy, not_lt.mpr hm, not_lt.mpr hw]
  · intro sigs hmem
    rw [qualifyingSignals, List.mem_filter] at hmem
    simp [htf] at hmem

/-- Witness for C3: a profile whose dips all sit below their thresholds
is classified as no dip and filtered out of the allocation candidates. -/
theorem no_threshold_excluded_witness :
    getBestDipInfo ⟨"ACME", 0, 95, 96, 97, 100⟩ = none ∧
    (score "ACME" ⟨95, 96, 97, 100⟩).timeframe = SpecTimeframe.none ∧
    score "ACME" ⟨95, 96, 97, 100⟩
      ∉ qualifyingSignals [score "ACME" ⟨95, 96, 97, 100⟩] := by
  obtain ⟨h1, h2, h3⟩ := no_threshold_excluded ⟨"ACME", 0, 95, 96, 97, 100⟩
    (by norm_num [yearlyDip]) (by norm_num [monthlyDip]) (by norm_num [weeklyDip])
    "ACME" ⟨95, 96, 97, 100⟩
    (by norm_num) (by norm_num) (by norm_num)
  exact ⟨h1, h2, h3 [score "ACME" ⟨95, 96, 97, 100⟩]⟩

/-- A dip computed against a high at or below the current price is
non-positive. -/
theorem dip_nonpos_of_over_high (c h : ℚ) (hh : 0 < h) (hc : h ≤ c) :
    (h - c) / h * 100 ≤ 0 := by
  have hq : (h - c) / h ≤ 0 := div_nonpos_iff.mpr (Or.inr ⟨by linarith, hh.le⟩)
  linarith

/-- A positive computed dip means the current price is strictly below the
high. -/
theorem below_high_of_dip_pos (c h : ℚ) (hh : 0 < h) (hd : 0 < (h - c) / h * 100) :
    c < h := by
  by_contra hcon
  push_neg at hcon
  exact absurd hd (not_lt.mpr (dip_nonpos_of_over_high c h hh hcon))

/-- Case analysis on a successful classification: the result is exactly
one of the three branch outcomes, with its threshold strictly met. -/
theorem getBestDipInfo_some_cases (rec : Recommendation) (i : DipInfo)
    (hi : getBestDipInfo rec = some i) :
    (i = ⟨Timeframe.yearly, yearlyDip rec, rec.yearlyHigh⟩ ∧ 10 < yearlyDip rec) ∨
    (i = ⟨Timeframe.monthly, monthlyDip rec, rec.monthlyHigh⟩ ∧ 5 < monthlyDip rec) ∨
    (i = ⟨Timeframe.weekly, weeklyDip rec, rec.weeklyHigh⟩ ∧ 2 < weeklyDip rec) := by
  unfold getBestDipInfo at hi
  split_ifs at hi with c1 c2 c3
  · exact Or.inl ⟨(Option.some_inj.mp hi).symm, c1⟩
  · exact Or.inr (Or.inl ⟨(Option.some_inj.mp hi).symm, c2⟩)
  · exact Or.inr (Or.inr ⟨(Option.some_inj.mp hi).symm, c3⟩)

/-- Counterexample to claim C4 as stated: in the repository's dip
computation the dips are not clamped to `≥ 0` — with positive highs
`100, 200, 300` and a current price of `110` above the weekly high, the
computed weekly dip is `-10`, not `0`. -/
theorem dip_clamp_counterexample :
    weeklyDip ⟨"ACME", 0, 110, 100, 200, 300⟩ = -10 ∧
    ¬ 0 ≤ weeklyDip ⟨"ACME", 0, 110, 100, 200, 300⟩ ∧
    getDipPercentage 110 100 = -10 := by
  norm_num [weeklyDip, getDipPercentage]

/-- Claim C4 as amended: each timeframe dip is computed as
`(high - current_price) / high * 100`, without clamping; since the
classification thresholds are positive, a current price at or above a
given high (a non-positive dip) never yields a classification on that
timeframe, so it contributes no dip there rather than a negative one. -/
theorem dip_formula_over_high_unclassified (rec : Recommendation)
    (hw : 0 < rec.weeklyHigh) (hm : 0 < rec.monthlyHigh) (hy : 0 < rec.yearlyHigh) :
    yearlyDip rec = (rec.yearlyHigh - rec.currentPrice) / rec.yearlyHigh * 100 ∧
    monthlyDip rec = (rec.monthlyHigh - rec.currentPrice) / rec.monthlyHigh * 100 ∧
    weeklyDip rec = (rec.weeklyHigh - rec.currentPrice) / rec.weeklyHigh * 100 ∧
    (rec.yearlyHigh ≤ rec.currentPrice →
      ∀ i, getBestDipInfo rec = some i → i.type ≠ Timeframe.yearly) ∧
    (rec.monthlyHigh ≤ rec.currentPrice →
      ∀ i, getBestDipInfo rec = some i → i.type ≠ Timeframe.monthly) ∧
    (rec.weeklyHigh ≤ rec.currentPrice →
      ∀ i, getBestDipInfo rec = some i → i.type ≠ Timeframe.weekly) := by
  refine ⟨rfl, rfl, rfl, fun h i hi hty => ?_, fun h i hi hty => ?_,
    fun h i hi hty => ?_⟩
  · rcases getBestDipInfo_some_cases rec i hi with ⟨hieq, hd⟩ | ⟨hieq, hd⟩ | ⟨hieq, hd⟩ <;>
      subst hieq
    · have := dip_nonpos_of_over_high rec.currentPrice rec.yearlyHigh hy h
      simp only [yearlyDip] at hd
      linarith
    · simp at hty
    · simp at hty
  · rcases getBestDipInfo_some_cases rec i hi with ⟨hieq, hd⟩ | ⟨hieq, hd⟩ | ⟨hieq, hd⟩ <;>
      subst hieq
    · simp at hty
    · have := dip_nonpos_of_over_high rec.currentPrice rec.monthlyHigh hm h
      simp only [monthlyDip] at hd
      linarith
    · simp at hty
  · rcases getBestDipInfo_some_cases rec i hi with ⟨hieq, hd⟩ | ⟨hieq, hd⟩ | ⟨hieq, hd⟩ <;>
      subst hieq
    · simp at hty
    · simp at hty
    · have := dip_nonpos_of_over_high rec.currentPrice rec.weeklyHigh hw h
      simp only [weeklyDip] at hd
      linarith

/-- Witness for C4 as amended, at a profile whose current price sits
above the weekly high: the weekly timeframe is never the classification
outcome. -/
theorem dip_formula_over_high_unclassified_witness :
    (⟨"ACME", 0, 110, 100, 200, 300⟩ : Recommendation).weeklyHigh
        ≤ (⟨"ACME", 0, 110, 100, 200, 300⟩ : Recommendation).currentPrice ∧
    getBestDipInfo ⟨"ACME", 0, 110, 100, 200, 300⟩
        = some ⟨Timeframe.yearly, 190/3, 300⟩ ∧
    (⟨Timeframe.yearly, 190/3, 300⟩ : DipInfo).type ≠ Timeframe.weekly := by
  have heval : getBestDipInfo ⟨"ACME", 0, 110, 100, 200, 300⟩
      = some ⟨Timeframe.yearly, 190/3, 300⟩ := by
    norm_num [getBestDipInfo, yearlyDip]
  refine ⟨by norm_num, heval, ?_⟩
  exact (dip_formula_over_high_unclassified ⟨"ACME", 0, 110, 100, 200, 300⟩
    (by norm_num) (by norm_num) (by norm_num)).2.2.2.2.2 (by norm_num) _ heval

/-- Claim C5: a profile with all fields positive whose current price
exceeds one or more of its highs is tolerated: the classifier (a total
function — the source has no error branch at all) completes and simply
treats each over-high timeframe as a non-positive dip, which never meets
its positive threshold; any classification it does return is on a
timeframe whose high is strictly above the current price. -/
theorem over_high_tolerated (rec : Recommendation)
    (hc : 0 < rec.currentPrice) (hw : 0 < rec.weeklyHigh)
    (hm : 0 < rec.monthlyHigh) (hy : 0 < rec.yearlyHigh)
    (hover : rec.weeklyHigh < rec.currentPrice ∨ rec.monthlyHigh < rec.currentPrice ∨
      rec.yearlyHigh < rec.currentPrice) :
    (∀ i, getBestDipInfo rec = some i →
      2 < i.percentage ∧
      ((i.type = Timeframe.yearly → rec.currentPrice < rec.yearlyHigh) ∧
       (i.type = Timeframe.monthly → rec.currentPrice < rec.monthlyHigh) ∧
       (i.type = Timeframe.weekly → rec.currentPrice < rec.weeklyHigh))) ∧
    (rec.weeklyHigh ≤ rec.currentPrice ∧ rec.monthlyHigh ≤ rec.currentPrice ∧
      rec.yearlyHigh ≤ rec.currentPrice → getBestDipInfo rec = none) := by
  constructor
  · intro i hi
    rcases getBestDipInfo_some_cases rec i hi with ⟨hieq, hd⟩ | ⟨hieq, hd⟩ | ⟨hieq, hd⟩ <;>
      subst hieq
    · refine ⟨by simp; linarith, fun _ => ?_, by simp, by simp⟩
      exact below_high_of_dip_pos rec.currentPrice rec.yearlyHigh hy (by
        simpa [yearlyDip] using lt_trans (by norm_num : (0:ℚ) < 10) hd)
    · refine ⟨by simp; linarith, by simp, fun _ => ?_, by simp⟩
      exact below_high_of_dip_pos rec.currentPrice rec.monthlyHigh hm (by
        simpa [monthlyDip] using lt_trans (by norm_num : (0:ℚ) < 5) hd)
    · refine ⟨by simpa using hd, by simp, by simp, fun _ => ?_⟩
      exact below_high_of_dip_pos rec.currentPrice rec.weeklyHigh hw (by
        simpa [weeklyDip] using lt_trans (by norm_num : (0:ℚ) < 2) hd)
  · rintro ⟨h1, h2, h3⟩
    have d1 := dip_nonpos_of_over_high rec.currentPrice rec.yearlyHigh hy h3
    have d2 := dip_nonpos_of_over_high rec.currentPrice rec.monthlyHigh hm h2
    have d3 := dip_nonpos_of_over_high rec.currentPrice rec.weeklyHigh hw h1
    have n1 : ¬ yearlyDip rec > 10 := by simp only [yearlyDip]; linarith
    have n2 : ¬ monthlyDip rec > 5 := by simp only [monthlyDip]; linarith
    have n3 : ¬ weeklyDip rec > 2 := by simp only [weeklyDip]; linarith
    simp [getBestDipInfo, n1, n2, n3]

/-- Witness for C5: a profile with all fields positive whose current
price 110 sits above all three highs is classified `none`, and any
hypothetical classification would have to sit strictly below a high. -/
theorem over_high_tolerated_witness :
    getBestDipInfo ⟨"ACME", 0, 110, 100, 105, 108⟩ = none :=
  (over_high_tolerated ⟨"ACME", 0, 110, 100, 105, 108⟩
      (by norm_num) (by norm_num) (by norm_num) (by norm_num)
      (Or.inl (by norm_num))).2 (by norm_num)

/-- Claim C6: negative available cash is rejected rather than allocated —
a parsed cash value below zero fails the submit guard (no
`onCashUpdate`, no request) and the spec-modelled core signals
`InvalidAllocationInput`; non-negative values pass the guard. -/
theorem negative_cash_rejected (v : ℚ) (cands : List Candidate) :
    (v < 0 → handleCashUpdate (some v) = false ∧
      allocate v cands = Except.error AllocError.invalidAllocationInput) ∧
    (0 ≤ v → handleCashUpdate (some v) = true) := by
  constructor
  · intro hv
    constructor
    · simp only [handleCashUpdate, decide_eq_false_iff_not]
      exact not_le.mpr hv
    · simp [allocate, hv]
  · intro hv
    simp [handleCashUpdate, hv]

/-- Witness for C6 at the tested inputs: `-500` is rejected on both
sides, `2000` is accepted. -/
theorem negative_cash_rejected_witness :
    (handleCashUpdate (some (-500 : ℚ)) = false ∧
      allocate (-500) [] = Except.error AllocError.invalidAllocationInput) ∧
    handleCashUpdate (some (2000 : ℚ)) = true :=
  ⟨(negative_cash_rejected (-500) []).1 (by norm_num),
   (negative_cash_rejected 2000 []).2 (by norm_num)⟩

/-- Claim C7: zero available cash produces an empty recommendation list
with `remaining_cash = 0`; on the client the recommendation request is
only enabled for `availableCash > 0`, and an empty recommendation list
renders the empty state. -/
theorem zero_cash_empty (cash : ℚ) (hc : cash = 0) (cands : List Candidate)
    (d : RecommendationsResponse) :
    recommendationsQueryEnabled cash = false ∧
    allocate cash cands = Except.ok ⟨[], 0⟩ ∧
    (d.recommendations = [] → showsEmptyState (some d) = true) := by
  subst hc
  refine ⟨by simp [recommendationsQueryEnabled], by simp [allocate], fun hd => ?_⟩
  simp [showsEmptyState, hd]

/-- Witness for C7 at cash 0 and an empty response. -/
theorem zero_cash_empty_witness :
    recommendationsQueryEnabled 0 = false ∧
    allocate 0 [] = Except.ok ⟨[], 0⟩ ∧
    showsEmptyState (some ⟨[], ⟨0, []⟩⟩) = true := by
  obtain ⟨h1, h2, h3⟩ := zero_cash_empty 0 rfl [] ⟨[], ⟨0, []⟩⟩
  exact ⟨h1, h2, h3 rfl⟩

/-- `formatFixed2` renders zero as `0.00`. -/
theorem formatFixed2_zero : formatFixed2 0 = "0.00" := by
  have h : (⌊|(0 : ℚ)| * 100 + 1/2⌋ : ℤ) = 0 := by norm_num
  simp only [formatFixed2, h]
  norm_num
  rw [groupThousands]
  simp [pad2]
  decide

/-- `formatCurrency` renders a present zero as `$0.00`. -/
theorem formatCurrency_zero : formatCurrency (some 0) = "$0.00" := by
  simp [formatCurrency, formatFixed2_zero]

/-- `formatPLPercentage` renders a present zero as `+0.00%`. -/
theorem formatPLPercentage_zero : formatPLPercentage (some 0) = "+0.00%" := by
  simp [formatPLPercentage, formatPercentage, formatFixed2_zero]

/-- Claim C8: a holding with an absent `current_price` has absent derived
value and P/L fields, contributes nothing to the aggregate sums, and its
value and P/L cells render as `"N/A"` — never as a formatted `$0`. -/
theorem absent_price_na (h : Holding) (hs : List Holding)
    (hnone : h.currentPrice = none) :
    valuate h = ⟨none, none, none⟩ ∧
    aggregate (h :: hs) = aggregate hs ∧
    currencyCell (valuate h).value = "N/A" ∧
    currencyCell (valuate h).plDollar = "N/A" ∧
    plPercentCell (valuate h).plPercent = "N/A" ∧
    currencyCell (valuate h).value ≠ formatCurrency (some 0) := by
  have hv : valuate h = ⟨none, none, none⟩ := by simp [valuate, hnone]
  refine ⟨hv, ?_, ?_, ?_, ?_, ?_⟩
  · simp [aggregate, List.filter_cons, hnone]
  · rw [hv]; simp [currencyCell, truthy]
  · rw [hv]; simp [currencyCell, truthy]
  · rw [hv]; simp [plPercentCell, truthy]
  · rw [hv, formatCurrency_zero]
    simp [currencyCell, truthy]

/-- Witness for C8 at a concrete priceless holding alongside a priced
one. -/
theorem absent_price_na_witness :
    valuate ⟨"AAPL", 3, 5, none⟩ = ⟨none, none, none⟩ ∧
    aggregate [⟨"AAPL", 3, 5, none⟩, ⟨"MSFT", 1, 2, some 4⟩]
        = aggregate [⟨"MSFT", 1, 2, some 4⟩] ∧
    currencyCell (valuate ⟨"AAPL", 3, 5, none⟩).value = "N/A" ∧
    currencyCell (valuate ⟨"AAPL", 3, 5, none⟩).plDollar = "N/A" ∧
    plPercentCell (valuate ⟨"AAPL", 3, 5, none⟩).plPercent = "N/A" ∧
    currencyCell (valuate ⟨"AAPL", 3, 5, none⟩).value ≠ formatCurrency (some 0) :=
  absent_price_na ⟨"AAPL", 3, 5, none⟩ [⟨"MSFT", 1, 2, some 4⟩] rfl

/-- Claim C9: the projected portfolio's allocation list is presented
sorted in descending order of percentage — every adjacent pair of the
displayed order satisfies `percentage_i ≥ percentage_{i+1}`. -/
theorem allocations_sorted_desc (xs : List ProjectedAllocation) :
    List.Chain' (fun a b => b.percentage ≤ a.percentage) (sortAllocationsDesc xs) := by
  have hs := @List.sorted_mergeSort ProjectedAllocation
    (fun a b => decide (b.percentage ≤ a.percentage))
    (fun a b c hab hbc => by
      simp only [decide_eq_true_eq] at *
      exact le_trans hbc hab)
    (fun a b => by simpa using le_total b.percentage a.percentage) xs
  exact List.Pairwise.chain' (hs.imp fun hd => by simpa using hd)

/-- Claim C10: a present but exactly-zero `pl_dollar` or `pl_percent` is
falsy, so the stocks table renders its cell as `"N/A"` rather than the
formatted zero amount (`$0.00` / `+0.00%`) — the guard tests truthiness,
not presence. -/
theorem zero_pl_renders_na :
    currencyCell (some 0) = "N/A" ∧
    plPercentCell (some 0) = "N/A" ∧
    formatCurrency (some 0) = "$0.00" ∧
    formatPLPercentage (some 0) = "+0.00%" ∧
    currencyCell (some 0) ≠ formatCurrency (some 0) ∧
    plPercentCell (some 0) ≠ formatPLPercentage (some 0) := by
  have h1 : currencyCell (some 0) = "N/A" := by simp [currencyCell, truthy]
  have h2 : plPercentCell (some 0) = "N/A" := by simp [plPercentCell, truthy]
  refine ⟨h1, h2, formatCurrency_zero, formatPLPercentage_zero, ?_, ?_⟩
  · rw [h1, formatCurrency_zero]; decide
  · rw [h2, formatPLPercentage_zero]; decide

end PortfolioAnalyzer
